import Mathlib

/-!
Verification development for the TingaTalk backend call-session and billing
subsystem.  The definitions below are a shallow embedding of the relevant
parts of `src/server.js` (socket handlers `initiate_call`, `accept_call`,
`end_call`, `disconnect`, the ring-timeout closure, the HTTP endpoints
`/api/start_call_tracking`, `/api/complete_call`, `/api/calls/start`,
`/api/calls/complete`, the heartbeat/eviction sweeps) together with the
collaborators from the scalability module (`deductUserCoins`,
`acquireCallLock`, Firestore call records).

Modelling conventions:
* JavaScript `Map`s become association lists over `String` keys (`SMap`).
* Timestamps (`Date.now()`, `lastStatusChange`, `endedAt`, ...) are dropped
  or passed as an explicit `now : Nat` where they influence data (call-id
  generation, timer `startTime`).
* The per-second `setInterval` incrementer is represented by the stored
  `durationSeconds` counter; `clearInterval` on the handle stored in a timer
  entry is modelled by the entry's `running` flag going to `false`.
* Coin amounts are integer hundredths of a coin, an exact representation of
  every JS number the billing code manipulates (rates 0.2 and 1.0, products
  with integer durations, `toFixed(2)` results, whole-coin ceilings);
  `ceilCoins_eq_ceil` relates the scaled formula to the mathematical
  ceiling.
* Asynchronous handlers are modelled as state transformers.  `initiate_call`
  additionally gets a two-phase presentation (`initPhaseA` / `initPhaseB`)
  whose boundary is the first `await` inside the handler (the Firestore fetch
  of the caller's display name, server.js line 2109); running the two phases
  back to back is the sequential semantics `initiateCall`, while interleaving
  the phases of two requests exhibits the concurrent behaviour of the
  single-threaded event loop suspending at that `await`.
-/

namespace TingaTalk

/-- Association-list map with string keys, modelling a JS `Map`. -/
abbrev SMap (α : Type) := List (String × α)

/-- Lookup, `Map.get`. -/
def mget {α : Type} (m : SMap α) (k : String) : Option α :=
  match m with
  | [] => none
  | (k', v) :: t => if k' = k then some v else mget t k

/-- Insert or replace, `Map.set`. -/
def mset {α : Type} (m : SMap α) (k : String) (v : α) : SMap α :=
  match m with
  | [] => [(k, v)]
  | (k', v') :: t => if k' = k then (k, v) :: t else (k', v') :: mset t k v

/-- Remove, `Map.delete`. -/
def mdel {α : Type} (m : SMap α) (k : String) : SMap α :=
  match m with
  | [] => []
  | (k', v') :: t => if k' = k then mdel t k else (k', v') :: mdel t k

/-- Call media type, fixing the billing rate (server.js `call_type`). -/
inductive CallType
  | audio
  | video
deriving DecidableEq, Repr

/-- Per-second coin rates, server.js lines 345-348: audio 0.2 coins, video
1.0 coins, represented exactly as hundredths of a coin per second.  All
money amounts in this model are integer hundredths of a coin; the JS
numbers the program manipulates (0.2, 1.0, products with integer durations,
`toFixed(2)` roundings) are all exact multiples of 0.01, so this scaling is
an exact embedding. -/
def COIN_RATES : CallType → ℕ
  | .audio => 20
  | .video => 100

/-- Minimum prepaid duration, server.js line 351. -/
def MIN_CALL_DURATION_SECONDS : ℕ := 120

/-- Minimum balances (server.js lines 352-353): audio 24, video 120 coins
(in hundredths). -/
def MIN_BALANCE (ct : CallType) : ℕ :=
  COIN_RATES ct * MIN_CALL_DURATION_SECONDS

/-- User status strings used by the `userStatus` map plus the derived
`fcm_reachable` resolution result (server.js line 2142). -/
inductive UStatus
  | available
  | unavailable
  | busy
  | ringing
  | disconnected
  | fcm_reachable
deriving DecidableEq, Repr

/-- Entry of the `userStatus` map (timestamps dropped). -/
structure UserStatusRec where
  status : UStatus
  currentCallId : Option String
deriving DecidableEq, Repr

/-- Entry of the `connectedUsers` map.  `socketConnected` models the
`io.sockets.sockets.get(socketId)` lookup succeeding with `socket.connected`. -/
structure ConnRec where
  socketId : String
  isOnline : Bool
  socketConnected : Bool
deriving DecidableEq, Repr

/-- In-memory call session status values used by server.js. -/
inductive CallStatus
  | initiated
  | ringing
  | pending_fcm
  | accepted
  | ended
  | declined
  | cancelled
  | timeout
  | disconnected
  | failed
deriving DecidableEq, Repr

/-- Entry of the `activeCalls` map (timestamps and room names dropped). -/
structure CallRec where
  callerId : String
  recipientId : String
  callType : CallType
  status : CallStatus
  participants : List String
deriving DecidableEq, Repr

/-- Entry of the `callTimers` map.  `running` records whether the interval
handle stored in this entry has not yet been passed to `clearInterval`. -/
structure TimerRec where
  running : Bool
  durationSeconds : Nat
  coinRate : ℕ
  callerId : String
  recipientId : String
  callType : CallType
  startTime : Nat
  autoStarted : Bool
deriving DecidableEq, Repr

/-- Fraud-detection record built by `/api/calls/complete` (lines 1776-1781). -/
structure FraudRec where
  clientDuration : Nat
  serverDuration : Nat
  differenceSeconds : Nat
  isSuspicious : Bool
deriving DecidableEq, Repr

/-- Firestore `users/{id}` fields the core reads and writes. -/
structure FireUser where
  coins : ℤ
  isAvailable : Bool
  hasFcmToken : Bool
deriving DecidableEq, Repr

/-- Firestore `calls/{id}` fields tracked by the model.
`updateCallInFirestore` (part_005 lines 449-481) copies only a fixed
whitelist of keys from its `updates` argument (`durationSeconds`,
`coinsDeducted`, `status`, `endedAt`, `serverDurationSeconds`,
`clientDurationSeconds`, `isFraudulent`, `endReason`, `autoCompleted`), and
`saveCallToFirestore` writes a similar fixed field set; keys outside the
whitelist that callers pass — notably the `fraudDetection` object and
`billingSource` from `/api/calls/complete` — are silently dropped and never
reach the document.  The model therefore carries only the persistable
fields the handlers actually use. -/
structure FireCall where
  status : String
  durationSeconds : Nat
  coinsDeducted : ℤ
  endReason : String
deriving DecidableEq, Repr

/-- Outbound socket events the modelled handlers emit. -/
inductive OutEvent
  | callFailed (callId : String) (reason : String) (recipientStatus : Option UStatus)
  | callInitiated (callId : String)
  | incomingCall (toUser : String) (callId : String)
  | callAccepted (toUser : String) (callId : String)
  | callEnded (toUser : String) (callId : String)
  | callTimeoutEvt (toUser : String) (callId : String)
  | participantDisconnected (toUser : String) (callId : String)
  | errorEvt (message : String)
deriving DecidableEq, Repr

/-- Combined server state: the four in-process maps of server.js lines
175-182, the Firestore mirror, the Redis call-lock store of the scalability
module, and the trace of emitted events. -/
structure ServerState where
  connectedUsers : SMap ConnRec
  userStatus : SMap UserStatusRec
  activeCalls : SMap CallRec
  callTimers : SMap TimerRec
  fsUsers : SMap FireUser
  fsCalls : SMap FireCall
  locks : SMap String
  events : List OutEvent
deriving DecidableEq, Repr

/-- Ceiling billing formula `Math.ceil(durationSeconds * coinRate)`: whole
coins charged for `d` seconds at `rate` hundredths of a coin per second. -/
def ceilCoins (d : Nat) (rate : ℕ) : ℕ := (d * rate + 99) / 100

/-- Atomic coin deduction `deductUserCoins` (scalability module, part_005
lines 527-585): transaction fails (leaving balances unchanged) if the user
document is missing or the balance is insufficient. -/
def deductUserCoins (fs : SMap FireUser) (uid : String) (amount : ℤ) : SMap FireUser :=
  match mget fs uid with
  | none => fs
  | some u => if u.coins < amount then fs else mset fs uid { u with coins := u.coins - amount }

/-- Firestore `updateCallInFirestore`: merges fields into an existing
document; a missing document makes the update fail, which the callers catch
and log.  The whitelist of updatable keys is enforced by the `FireCall`
field set: only whitelisted fields exist, so an update function can touch
nothing else. -/
def fsUpdateCall (fs : SMap FireCall) (cid : String) (f : FireCall → FireCall) : SMap FireCall :=
  match mget fs cid with
  | none => fs
  | some c => mset fs cid (f c)

/-- Firestore `callRef.set(..., merge)` via `saveCallToFirestore`: creates or
overwrites the tracked fields. -/
def fsSetCall (fs : SMap FireCall) (cid : String) (c : FireCall) : SMap FireCall :=
  mset fs cid c

/-- Redis lock acquisition `acquireCallLock` (part_005 lines 246-264):
atomic set-if-absent.  Defined in the source but never invoked by server.js. -/
def acquireCallLock (locks : SMap String) (recipientId callerId : String) :
    Bool × SMap String :=
  match mget locks recipientId with
  | some _ => (false, locks)
  | none => (true, mset locks recipientId callerId)

/-- HTTP `/api/start_call_tracking` (server.js lines 1314-1367) with all
required fields present: creates a fresh interval and unconditionally
overwrites the `callTimers` entry (no existence check). -/
def startCallTracking (call_id caller_id recipient_id : String) (call_type : CallType)
    (now : Nat) (s : ServerState) : ServerState :=
  let fresh : TimerRec :=
    { running := true
      durationSeconds := 0
      coinRate := COIN_RATES call_type
      callerId := caller_id
      recipientId := recipient_id
      callType := call_type
      startTime := now
      autoStarted := false }
  { s with callTimers := mset s.callTimers call_id fresh }

/-- Request body of the legacy `/api/complete_call` endpoint. -/
structure LegacyCompleteReq where
  call_id : String
  client_duration_seconds : Option Nat
  client_coins_deducted : Option ℤ
deriving DecidableEq, Repr

/-- Response of the legacy `/api/complete_call` endpoint. -/
structure LegacyCompleteResp where
  success : Bool
  duration_seconds : Nat
  coins_deducted : ℤ
  source : String
  is_fraudulent : Option Bool
deriving DecidableEq, Repr

/-- HTTP `/api/complete_call` (server.js lines 1370-1434).  With a live
timer it reports `serverDuration * coinRate` via `toFixed(2)` (line 1395,
no ceiling), computes the fraud flag, and deletes the timer; it performs no
balance deduction and no status reset on any path. -/
def legacyCompleteCall (r : LegacyCompleteReq) (s : ServerState) :
    LegacyCompleteResp × ServerState :=
  match mget s.callTimers r.call_id with
  | none =>
      ({ success := true
         duration_seconds := r.client_duration_seconds.getD 0
         coins_deducted := r.client_coins_deducted.getD 0
         source := "client"
         is_fraudulent := none }, s)
  | some t =>
      let d := t.durationSeconds
      let serverCoins : ℤ := (d : ℤ) * (t.coinRate : ℤ)
      let diff := Int.natAbs ((d : ℤ) - (r.client_duration_seconds.getD 0 : ℤ))
      ({ success := true
         duration_seconds := d
         coins_deducted := serverCoins
         source := "server"
         is_fraudulent := some (decide (diff > 5)) },
       { s with callTimers := mdel s.callTimers r.call_id })

/-- Request body of `/api/calls/complete` (legacy field aliases already
coalesced into the canonical names, lines 1694-1705). -/
structure CompleteReq where
  callId : String
  callerId : Option String
  endReason : Option String
  client_duration_seconds : Option Nat
  client_coins_deducted : Option ℤ
deriving DecidableEq, Repr

/-- Response of `/api/calls/complete`. -/
structure CompleteResp where
  success : Bool
  durationSeconds : Nat
  coinsDeducted : ℤ
  newBalance : Option ℤ
  source : String
  fraudDetection : Option FraudRec
deriving DecidableEq, Repr

/-- Firestore `getUserBalance` (part_005 lines 659-676). -/
def getUserBalance (fs : SMap FireUser) (uid : String) : Option ℤ :=
  (mget fs uid).map (·.coins)

/-- HTTP `/api/calls/complete` (server.js lines 1691-1841).  Missing timer:
graceful fallback (client-reported values recorded, or a zero
`already_completed` acknowledgement), no deduction.  Live timer: stop,
charge `ceil(duration * coinRate)` to `callerId || timer.callerId`, compute
the optional fraud comparison, delete the timer, reset both participants'
statuses.  The `fraudDetection` object and `billingSource` the handler
passes to `updateCallInFirestore` are dropped by its whitelist, so the
persisted document update carries only status, duration, coins and
endReason; the fraud flag is returned in the HTTP response only. -/
def completeCall (r : CompleteReq) (s : ServerState) : CompleteResp × ServerState :=
  match mget s.callTimers r.callId with
  | none =>
    match r.client_duration_seconds with
    | some cd =>
        let fs := fsUpdateCall s.fsCalls r.callId fun c =>
          { c with status := "completed"
                   durationSeconds := cd
                   coinsDeducted := r.client_coins_deducted.getD 0
                   endReason := r.endReason.getD "User ended call" }
        ({ success := true
           durationSeconds := cd
           coinsDeducted := r.client_coins_deducted.getD 0
           newBalance := none
           source := "client_fallback"
           fraudDetection := none },
         { s with fsCalls := fs })
    | none =>
        ({ success := true
           durationSeconds := 0
           coinsDeducted := 0
           newBalance := none
           source := "already_completed"
           fraudDetection := none }, s)
  | some t =>
      let d := t.durationSeconds
      let coins : ℤ := 100 * (ceilCoins d t.coinRate : ℤ)
      let fraud : Option FraudRec :=
        match r.client_duration_seconds with
        | some cd =>
            let diff := Int.natAbs ((d : ℤ) - (cd : ℤ))
            some { clientDuration := cd
                   serverDuration := d
                   differenceSeconds := diff
                   isSuspicious := decide (diff > 5) }
        | none => none
      let payer := r.callerId.getD t.callerId
      let fsU := deductUserCoins s.fsUsers payer coins
      let fsC := fsUpdateCall s.fsCalls r.callId fun c =>
        { c with status := "completed"
                 durationSeconds := d
                 coinsDeducted := coins
                 endReason := r.endReason.getD "User ended call" }
      let us1 := mset s.userStatus t.callerId ⟨.available, none⟩
      let us2 := mset us1 t.recipientId ⟨.available, none⟩
      ({ success := true
         durationSeconds := d
         coinsDeducted := coins
         newBalance := getUserBalance fsU payer
         source := "server"
         fraudDetection := fraud },
       { s with fsUsers := fsU
                fsCalls := fsC
                callTimers := mdel s.callTimers r.callId
                userStatus := us2 })

/-- Result of `/api/calls/start`. -/
inductive StartResult
  | notAvailable (recipientStatus : UStatus)
  | callerNotFound
  | insufficientBalance (current required : ℤ)
  | started (coinRate : ℕ)
deriving DecidableEq, Repr

/-- HTTP `/api/calls/start` (server.js lines 1565-1688): availability check
(connection plus status map, default available), balance check, Firestore
record, then an unconditional `callTimers.set` that overwrites any existing
timer for the callId. -/
def callsStart (callId callerId recipientId : String) (callType : CallType)
    (now : Nat) (s : ServerState) : StartResult × ServerState :=
  let hasConnection :=
    match mget s.connectedUsers recipientId with
    | some c => c.isOnline && c.socketConnected
    | none => false
  let actualStatus : UStatus :=
    if hasConnection then
      match mget s.userStatus recipientId with
      | some r => r.status
      | none => .available
    else .unavailable
  if actualStatus ≠ .available then
    (.notAvailable actualStatus, s)
  else
    match getUserBalance s.fsUsers callerId with
    | none => (.callerNotFound, s)
    | some bal =>
      if bal < (MIN_BALANCE callType : ℤ) then
        (.insufficientBalance bal (MIN_BALANCE callType), s)
      else
        let rate := COIN_RATES callType
        let doc : FireCall :=
          { status := "initiated"
            durationSeconds := 0
            coinsDeducted := 0
            endReason := "" }
        let fresh : TimerRec :=
          { running := true
            durationSeconds := 0
            coinRate := rate
            callerId := callerId
            recipientId := recipientId
            callType := callType
            startTime := now
            autoStarted := false }
        (.started rate,
         { s with fsCalls := fsSetCall s.fsCalls callId doc
                  callTimers := mset s.callTimers callId fresh })

/-- Socket `accept_call` handler (server.js lines 2387-2488).  Guards: the
session exists and `call.recipientId === recipientId`; the session status is
not inspected.  Effects: both request-supplied users marked busy, status
`accepted`, recipient appended to participants, billing timer auto-started
only when absent, caller notified if a connection record exists. -/
def acceptCall (callId callerId recipientId : String) (now : Nat)
    (s : ServerState) : ServerState :=
  match mget s.activeCalls callId with
  | none => { s with events := s.events ++ [.errorEvt "Call not found"] }
  | some call =>
    if call.recipientId ≠ recipientId then
      { s with events := s.events ++ [.errorEvt "Unauthorized to accept this call"] }
    else
      let us1 := mset s.userStatus callerId ⟨.busy, some callId⟩
      let us2 := mset us1 recipientId ⟨.busy, some callId⟩
      let call2 := { call with status := CallStatus.accepted
                               participants := call.participants ++ [recipientId] }
      let hadTimer := (mget s.callTimers callId).isSome
      let fresh : TimerRec :=
        { running := true
          durationSeconds := 0
          coinRate := COIN_RATES call.callType
          callerId := callerId
          recipientId := recipientId
          callType := call.callType
          startTime := now
          autoStarted := true }
      let activeDoc : FireCall :=
        { status := "active"
          durationSeconds := 0
          coinsDeducted := 0
          endReason := "" }
      let timers := if hadTimer then s.callTimers else mset s.callTimers callId fresh
      let fsC := if hadTimer then s.fsCalls else fsSetCall s.fsCalls callId activeDoc
      let evts :=
        match mget s.connectedUsers callerId with
        | some _ => [OutEvent.callAccepted callerId callId]
        | none => []
      { s with userStatus := us2
               activeCalls := mset s.activeCalls callId call2
               callTimers := timers
               fsCalls := fsC
               events := s.events ++ evts }

/-- Socket `end_call` handler (server.js lines 2590-2641).  Stops the timer
interval if one exists but leaves the `callTimers` entry in place, resets
every participant's status to available, notifies connected participants,
and removes the session (`completeCallSync`).  No coins are deducted. -/
def endCallEvt (callId _userId : String) (s : ServerState) : ServerState :=
  match mget s.activeCalls callId with
  | none => { s with events := s.events ++ [.errorEvt "Call not found"] }
  | some call =>
    let timers :=
      match mget s.callTimers callId with
      | some t => mset s.callTimers callId { t with running := false }
      | none => s.callTimers
    let us := call.participants.foldl
      (fun m p => mset m p (⟨.available, none⟩ : UserStatusRec)) s.userStatus
    let evts := call.participants.filterMap fun p =>
      (mget s.connectedUsers p).map fun _ => OutEvent.callEnded p callId
    let fsC := fsUpdateCall s.fsCalls callId fun c => { c with status := "ended" }
    { s with activeCalls := mdel s.activeCalls callId
             callTimers := timers
             userStatus := us
             fsCalls := fsC
             events := s.events ++ evts }

/-- The 30-second ring-timeout closure armed by `initiate_call` (server.js
lines 2272-2297): if the session still exists with status `ringing`, reset
the recipient, notify both sides, and remove the session. -/
def ringTimeout (callId recipientId callerId : String) (s : ServerState) : ServerState :=
  match mget s.activeCalls callId with
  | none => s
  | some call =>
    if call.status = CallStatus.ringing then
      { s with userStatus := mset s.userStatus recipientId ⟨.available, none⟩
               activeCalls := mdel s.activeCalls callId
               fsCalls := fsUpdateCall s.fsCalls callId fun c => { c with status := "timeout" }
               events := s.events ++ [.callTimeoutEvt recipientId callId,
                                      .callTimeoutEvt callerId callId] }
    else s

/-- Socket `disconnect` handler, mid-call branch included (server.js lines
2733-2890), for the user whose socket dropped.  Other participants are
notified with `participant_disconnected` (no `call_ended` is emitted on this
path) and reset to available; with a live timer the caller is charged
`ceil(duration * coinRate)` and the timer and session are removed; finally
the disconnecting user's own status becomes `disconnected`. -/
def disconnectHandler (userId : String) (s : ServerState) : ServerState :=
  match mget s.connectedUsers userId with
  | none => s
  | some conn =>
    let s0 := { s with connectedUsers := mset s.connectedUsers userId { conn with isOnline := false } }
    let s1 :=
      match mget s0.userStatus userId with
      | some st =>
        match st.currentCallId with
        | some callId =>
          match mget s0.activeCalls callId with
          | some call =>
            let others := call.participants.filter (· ≠ userId)
            let evts := others.filterMap fun p =>
              match mget s0.connectedUsers p with
              | some pc => if pc.isOnline then some (OutEvent.participantDisconnected p callId) else none
              | none => none
            let us := others.foldl (fun m p => mset m p (⟨.available, none⟩ : UserStatusRec)) s0.userStatus
            let s2 := { s0 with userStatus := us, events := s0.events ++ evts }
            match mget s2.callTimers callId with
            | some t =>
              let d := t.durationSeconds
              let rate := if t.coinRate = 0 then COIN_RATES .audio else t.coinRate
              let coins : ℤ := 100 * (ceilCoins d rate : ℤ)
              let fsU := if 0 < coins then deductUserCoins s2.fsUsers call.callerId coins
                         else s2.fsUsers
              let fsC := fsUpdateCall s2.fsCalls callId fun c =>
                { c with status := "disconnected"
                         endReason := "connection_lost"
                         durationSeconds := d
                         coinsDeducted := coins }
              { s2 with activeCalls := mdel s2.activeCalls callId
                        callTimers := mdel s2.callTimers callId
                        fsUsers := fsU
                        fsCalls := fsC }
            | none =>
              let fsC := fsUpdateCall s2.fsCalls callId fun c =>
                { c with status := "disconnected"
                         endReason := "connection_lost_before_connect"
                         durationSeconds := 0
                         coinsDeducted := 0 }
              { s2 with activeCalls := mdel s2.activeCalls callId, fsCalls := fsC }
          | none => s0
        | none => s0
      | none => s0
    { s1 with userStatus := mset s1.userStatus userId ⟨.disconnected, none⟩ }

/-- Context captured by `initiate_call` before its first `await` (the caller
name fetch, server.js line 2109) and used after it resumes. -/
structure InitCtx where
  callerId : String
  recipientId : String
  callType : CallType
  reqCallId : Option String
  actualStatus : UStatus
  hasConnection : Bool
deriving DecidableEq, Repr

/-- String form of a status, as interpolated into JS template literals. -/
def statusName : UStatus → String
  | .available => "available"
  | .unavailable => "unavailable"
  | .busy => "busy"
  | .ringing => "ringing"
  | .disconnected => "disconnected"
  | .fcm_reachable => "fcm_reachable"

/-- Fallback call id `call_${Date.now()}` used by the rejection payloads. -/
def genFailId (now : Nat) : String := "call_" ++ toString now

/-- Generated call id `call_${callerId}_${recipientId}_${Date.now()}`. -/
def genCallId (callerId recipientId : String) (now : Nat) : String :=
  "call_" ++ callerId ++ "_" ++ recipientId ++ "_" ++ toString now

/-- Synchronous prefix of the `initiate_call` handler (server.js lines
2043-2098): connection check, missing-status fix, and the explicit
busy/ringing rejection.  Returns `none` when the request was rejected. -/
def initPhaseA (callerId recipientId : String) (callType : CallType)
    (reqCallId : Option String) (now : Nat) (s : ServerState) :
    ServerState × Option InitCtx :=
  let rstat := mget s.userStatus recipientId
  let hasConnection : Bool :=
    match mget s.connectedUsers recipientId with
    | some c => c.isOnline && c.socketConnected
    | none => false
  let s1 :=
    if hasConnection && rstat.isNone then
      { s with userStatus := mset s.userStatus recipientId ⟨.available, none⟩ }
    else s
  let actualStatus : UStatus :=
    if hasConnection then
      match rstat with
      | some r => r.status
      | none => .available
    else .unavailable
  match rstat with
  | some r =>
    if r.status = .busy ∨ r.status = .ringing then
      let reason := if r.status = .busy then "User is busy on another call"
                    else "User is receiving another call"
      ({ s1 with events := s1.events ++
           [.callFailed (reqCallId.getD (genFailId now)) reason (some r.status)] },
       none)
    else
      (s1, some ⟨callerId, recipientId, callType, reqCallId, actualStatus, hasConnection⟩)
  | none =>
      (s1, some ⟨callerId, recipientId, callType, reqCallId, actualStatus, hasConnection⟩)

/-- Remainder of the `initiate_call` handler after the caller-name `await`
(server.js lines 2100-2384): FCM reachability resolution for recipients
without a connection, the final availability rejection (using the status
captured in phase A), session creation, and the ringing / pending-FCM /
failed branches.  No lock is ever acquired. -/
def initPhaseB (ctx : InitCtx) (now : Nat) (s : ServerState) : ServerState :=
  let actual2 : UStatus :=
    if ctx.hasConnection then ctx.actualStatus
    else
      match mget s.fsUsers ctx.recipientId with
      | some u => if u.isAvailable && u.hasFcmToken then .fcm_reachable else .unavailable
      | none => .unavailable
  if actual2 ≠ .available ∧ actual2 ≠ .fcm_reachable then
    { s with events := s.events ++
        [.callFailed (ctx.reqCallId.getD (genFailId now))
          ("Recipient is currently " ++ statusName actual2) (some actual2)] }
  else
    let cid := ctx.reqCallId.getD (genCallId ctx.callerId ctx.recipientId now)
    let call : CallRec :=
      { callerId := ctx.callerId
        recipientId := ctx.recipientId
        callType := ctx.callType
        status := .initiated
        participants := [ctx.callerId] }
    let initDoc : FireCall :=
      { status := "initiated"
        durationSeconds := 0
        coinsDeducted := 0
        endReason := "" }
    let s1 := { s with activeCalls := mset s.activeCalls cid call
                       fsCalls := fsSetCall s.fsCalls cid initDoc }
    let recipOnline :=
      match mget s1.connectedUsers ctx.recipientId with
      | some c => c.isOnline
      | none => false
    if recipOnline then
      { s1 with userStatus := mset s1.userStatus ctx.recipientId ⟨.ringing, some cid⟩
                activeCalls := mset s1.activeCalls cid { call with status := .ringing }
                events := s1.events ++ [.incomingCall ctx.recipientId cid, .callInitiated cid] }
    else
      if actual2 = .fcm_reachable then
        let fcmSent :=
          match mget s1.fsUsers ctx.recipientId with
          | some u => u.hasFcmToken
          | none => false
        if fcmSent then
          { s1 with activeCalls := mset s1.activeCalls cid { call with status := .pending_fcm }
                    events := s1.events ++ [.callInitiated cid] }
        else
          { s1 with activeCalls := mset s1.activeCalls cid { call with status := .failed }
                    events := s1.events ++ [.callFailed cid "Could not reach recipient" none] }
      else
        { s1 with activeCalls := mset s1.activeCalls cid { call with status := .failed }
                  events := s1.events ++ [.callFailed cid "Recipient is offline" none] }

/-- Sequential semantics of `initiate_call`: phase A, then phase B with no
intervening activity. -/
def initiateCall (callerId recipientId : String) (callType : CallType)
    (reqCallId : Option String) (now : Nat) (s : ServerState) : ServerState :=
  match initPhaseA callerId recipientId callType reqCallId now s with
  | (s1, none) => s1
  | (s1, some ctx) => initPhaseB ctx now s1

/-- The recipient availability resolution the `initiate_call` handler
applies, read off the code: the raw busy/ringing statuses take precedence
(line 2084); with a live connection the explicit status (default available)
is used; otherwise the Firestore toggle and FCM token decide between
`fcm_reachable` and `unavailable` (lines 2127-2148). -/
def resolvedStatus (s : ServerState) (recipientId : String) : UStatus :=
  let hasConnection :=
    match mget s.connectedUsers recipientId with
    | some c => c.isOnline && c.socketConnected
    | none => false
  let fcmFallback : UStatus :=
    match mget s.fsUsers recipientId with
    | some u => if u.isAvailable && u.hasFcmToken then .fcm_reachable else .unavailable
    | none => .unavailable
  match mget s.userStatus recipientId with
  | some r =>
    if r.status = .busy ∨ r.status = .ringing then r.status
    else if hasConnection then r.status
    else fcmFallback
  | none => if hasConnection then .available else fcmFallback

/-- Timer-store size cap, server.js line 3003. -/
def MAX_CONCURRENT_CALLS : Nat := 1000

/-- Ascending insertion by `startTime`, modelling the `sort` at line 3008. -/
def insertByStart (p : String × TimerRec) :
    List (String × TimerRec) → List (String × TimerRec)
  | [] => [p]
  | q :: t => if p.2.startTime ≤ q.2.startTime then p :: q :: t else q :: insertByStart p t

/-- Sort of the timer entries by `startTime`. -/
def sortByStart : List (String × TimerRec) → List (String × TimerRec)
  | [] => []
  | p :: t => insertByStart p (sortByStart t)

/-- The memory-protection eviction sweep (server.js lines 3004-3021): when
more than `MAX_CONCURRENT_CALLS` timers exist, the oldest surplus timers are
cleared and deleted.  No duration is read, no coins are computed or
deducted, and no statuses are touched. -/
def evictionSweep (s : ServerState) : ServerState :=
  if s.callTimers.length > MAX_CONCURRENT_CALLS then
    let toRemove := (sortByStart s.callTimers).take (s.callTimers.length - MAX_CONCURRENT_CALLS)
    { s with callTimers := toRemove.foldl (fun m kv => mdel m kv.1) s.callTimers }
  else s

/-- An initiated-call Firestore document used by concrete scenarios. -/
def docInit : FireCall :=
  { status := "initiated"
    durationSeconds := 0
    coinsDeducted := 0
    endReason := "" }

/-- A running 37-second audio timer for call `callX` between `userC` and
`userR`, used by concrete scenarios. -/
def timerA37 : TimerRec :=
  { running := true
    durationSeconds := 37
    coinRate := COIN_RATES .audio
    callerId := "userC"
    recipientId := "userR"
    callType := .audio
    startTime := 0
    autoStarted := false }

/-- Concrete state: `userC` (balance 200.00 coins) is 37 seconds into the
accepted audio call `callX` with `userR`; both are connected and busy. -/
def stateBill : ServerState :=
  { connectedUsers := [("userC", ⟨"sockC", true, true⟩), ("userR", ⟨"sockR", true, true⟩)]
    userStatus := [("userC", ⟨.busy, some "callX"⟩), ("userR", ⟨.busy, some "callX"⟩)]
    activeCalls := [("callX", ⟨"userC", "userR", .audio, .accepted, ["userC", "userR"]⟩)]
    callTimers := [("callX", timerA37)]
    fsUsers := [("userC", ⟨20000, true, true⟩), ("userR", ⟨0, true, true⟩)]
    fsCalls := [("callX", docInit)]
    locks := []
    events := [] }


/-- Completion request with no client-reported values, for call `callX`. -/
def reqServer : CompleteReq := ⟨"callX", none, none, none, none⟩

/-- Completion request reporting a matching 37-second client duration. -/
def reqClient37 : CompleteReq := ⟨"callX", none, none, some 37, some 740⟩

/-- Completion request reporting a wildly different 100-second duration. -/
def reqClient100 : CompleteReq := ⟨"callX", none, none, some 100, some 2000⟩

/-- Legacy completion request reporting a matching 37-second duration. -/
def legacyReq37 : LegacyCompleteReq := ⟨"callX", some 37, some 700⟩

/-- The billing scenario state with the server timer already gone. -/
def stateNoTimer : ServerState := { stateBill with callTimers := [] }

/-- Two connected, available callers `userA`/`userB` and a connected,
available recipient `userR`; no calls, no timers, no locks. -/
def stateTwoCallers : ServerState :=
  { connectedUsers := [("userR", ⟨"sockR", true, true⟩), ("userA", ⟨"sockA", true, true⟩),
                       ("userB", ⟨"sockB", true, true⟩)]
    userStatus := [("userR", ⟨.available, none⟩)]
    activeCalls := []
    callTimers := []
    fsUsers := [("userR", ⟨0, true, true⟩)]
    fsCalls := []
    locks := []
    events := [] }

/-- Interleaving step 1: the handler for caller `userA` runs its synchronous
prefix (all guards pass) and suspends at the caller-name fetch. -/
def racePhaseA1 : ServerState × Option InitCtx :=
  initPhaseA "userA" "userR" .video (some "call1") 10 stateTwoCallers

/-- Interleaving step 2: the handler for caller `userB` runs its synchronous
prefix on the state left by step 1 — the recipient is still `available`
because neither handler has reached its ringing transition — and suspends
at the same `await`. -/
def racePhaseA2 : ServerState × Option InitCtx :=
  initPhaseA "userB" "userR" .audio (some "call2") 11 racePhaseA1.1

/-- Interleaving step 3: handler 1 resumes and completes, setting `userR`
ringing with `call1`. -/
def raceState3 : ServerState :=
  match racePhaseA1.2 with
  | some ctx => initPhaseB ctx 10 racePhaseA2.1
  | none => racePhaseA2.1

/-- Interleaving step 4: handler 2 resumes with its stale captured guard
result and also completes, setting `userR` ringing with `call2`. -/
def raceState4 : ServerState :=
  match racePhaseA2.2 with
  | some ctx => initPhaseB ctx 11 raceState3
  | none => raceState3

/-- The two-caller race state with the recipient already ringing. -/
def stateRRinging : ServerState :=
  { stateTwoCallers with userStatus := [("userR", ⟨.ringing, some "call1"⟩)] }

/-! ### General lemmas -/

theorem mget_mset_self {α : Type} (m : SMap α) (k : String) (v : α) :
    mget (mset m k v) k = some v := by
  induction m with
  | nil => simp [mget, mset]
  | cons p t ih =>
    by_cases h : p.1 = k <;> simp [mget, mset, h, ih]

theorem mget_mset_ne {α : Type} (m : SMap α) {k k' : String} (v : α) (h : k' ≠ k) :
    mget (mset m k v) k' = mget m k' := by
  have hk : k ≠ k' := Ne.symm h
  induction m with
  | nil => simp [mget, mset, hk]
  | cons p t ih =>
    by_cases hp : p.1 = k
    · simp [mget, mset, hp, hk]
    · simp only [mset, hp, if_false, mget]
      by_cases hp' : p.1 = k' <;> simp [hp', ih]

theorem mget_mdel_self {α : Type} (m : SMap α) (k : String) :
    mget (mdel m k) k = none := by
  induction m with
  | nil => simp [mget, mdel]
  | cons p t ih =>
    by_cases h : p.1 = k <;> simp [mget, mdel, h, ih]

theorem mget_mdel_ne {α : Type} (m : SMap α) {k k' : String} (h : k' ≠ k) :
    mget (mdel m k) k' = mget m k' := by
  have hk : k ≠ k' := Ne.symm h
  induction m with
  | nil => simp [mget, mdel]
  | cons p t ih =>
    by_cases hp : p.1 = k
    · simp [mget, mdel, hp, hk, ih]
    · simp only [mdel, hp, if_false, mget]
      by_cases hp' : p.1 = k' <;> simp [hp', ih]

/-- The formula `ceilCoins` is the mathematical ceiling of
`durationSeconds * coinRate` in coins (`rate` being hundredths of a coin
per second). -/
theorem ceilCoins_eq_ceil (d rate : ℕ) :
    (ceilCoins d rate : ℤ) = ⌈((d : ℚ) * (rate : ℚ)) / 100⌉ := by
  have hx : ((d : ℚ) * (rate : ℚ)) / 100 = (((d * rate : ℕ) : ℤ) : ℚ) / ((100 : ℕ) : ℚ) := by
    push_cast
    ring
  rw [hx]
  have hneg : -((((d * rate : ℕ) : ℤ) : ℚ) / ((100 : ℕ) : ℚ))
      = (((-(d * rate : ℕ) : ℤ)) : ℚ) / ((100 : ℕ) : ℚ) := by
    push_cast
    ring
  have hfl : ⌊(((-(d * rate : ℕ) : ℤ)) : ℚ) / ((100 : ℕ) : ℚ)⌋
      = (-(d * rate : ℕ) : ℤ) / (100 : ℤ) := Rat.floor_intCast_div_natCast _ _
  have hceil : ⌈(((d * rate : ℕ) : ℤ) : ℚ) / ((100 : ℕ) : ℚ)⌉
      = -((-(d * rate : ℕ) : ℤ) / (100 : ℤ)) := by
    rw [← hfl, ← hneg, Int.floor_neg, neg_neg]
  rw [hceil, ceilCoins]
  omega

/-- Folded status resets: a key outside the list is untouched. -/
theorem mget_foldl_mset_not_mem {α : Type} (v : α) (l : List String) (m : SMap α) (p : String)
    (hp : p ∉ l) :
    mget (l.foldl (fun acc q => mset acc q v) m) p = mget m p := by
  induction l generalizing m with
  | nil => rfl
  | cons q t ih =>
    have hq : p ≠ q := fun h => hp (h ▸ List.mem_cons_self q t)
    have ht : p ∉ t := fun h => hp (List.mem_cons_of_mem q h)
    rw [List.foldl_cons, ih (mset m q v) ht, mget_mset_ne m v hq]

/-- Folded status resets: a key in the list gets the written value. -/
theorem mget_foldl_mset_mem {α : Type} (v : α) (l : List String) (m : SMap α) (p : String)
    (hp : p ∈ l) :
    mget (l.foldl (fun acc q => mset acc q v) m) p = some v := by
  induction l generalizing m with
  | nil => cases hp
  | cons q t ih =>
    by_cases hqt : p ∈ t
    · exact ih (mset m q v) hqt
    · have hpq : p = q := by
        cases hp with
        | head => rfl
        | tail _ h => exact absurd h hqt
      subst hpq
      have : mget (t.foldl (fun acc q => mset acc q v) (mset m p v)) p
          = mget (mset m p v) p := mget_foldl_mset_not_mem v t (mset m p v) p hqt
      rw [List.foldl_cons, this, mget_mset_self]

/-! ### Claim C1 -/

/-- C1 counterexample: with a live 37-second audio timer, the legacy
`/api/complete_call` endpoint reports `37 * 0.2 = 7.40` coins (740
hundredths), not the ceiling `8` coins (800 hundredths) the claim demands
for every completion path. -/
theorem C1_counterexample :
    mget stateBill.callTimers "callX" = some timerA37
    ∧ timerA37.durationSeconds = 37
    ∧ timerA37.coinRate = COIN_RATES .audio
    ∧ (legacyCompleteCall legacyReq37 stateBill).1.coins_deducted = 740
    ∧ 100 * (ceilCoins timerA37.durationSeconds timerA37.coinRate : ℤ) = 800
    ∧ (legacyCompleteCall legacyReq37 stateBill).1.coins_deducted
        ≠ 100 * (ceilCoins timerA37.durationSeconds timerA37.coinRate : ℤ) := by
  decide

/-- C1 (amended): `/api/calls/complete` charges exactly
`ceil(durationSeconds * coinRate)` (in particular 8 coins for 37 seconds at
rate 0.2) and deducts that amount from the caller's balance, but the legacy
`/api/complete_call` endpoint merely reports `durationSeconds * coinRate`
without any ceiling and never touches any balance. -/
theorem C1_amended_ceiling_billing (s : ServerState) (r : CompleteReq)
    (lr : LegacyCompleteReq) (t : TimerRec)
    (ht : mget s.callTimers r.callId = some t)
    (hlt : mget s.callTimers lr.call_id = some t) :
    (completeCall r s).1.coinsDeducted = 100 * (ceilCoins t.durationSeconds t.coinRate : ℤ)
    ∧ (completeCall r s).1.coinsDeducted
        = 100 * ⌈((t.durationSeconds : ℚ) * (t.coinRate : ℚ)) / 100⌉
    ∧ (completeCall r s).2.fsUsers
        = deductUserCoins s.fsUsers (r.callerId.getD t.callerId)
            (100 * (ceilCoins t.durationSeconds t.coinRate : ℤ))
    ∧ (t.durationSeconds = 37 → t.coinRate = COIN_RATES .audio →
        (completeCall r s).1.coinsDeducted = 800)
    ∧ (legacyCompleteCall lr s).1.coins_deducted = (t.durationSeconds : ℤ) * (t.coinRate : ℤ)
    ∧ (legacyCompleteCall lr s).2.fsUsers = s.fsUsers := by
  refine ⟨?_, ?_, ?_, ?_, ?_, ?_⟩
  · simp [completeCall, ht]
  · simp [completeCall, ht, ceilCoins_eq_ceil]
  · simp [completeCall, ht]
  · intro h37 hrate
    simp [completeCall, ht, h37, hrate]
    decide
  · simp [legacyCompleteCall, hlt]
  · simp [legacyCompleteCall, hlt]

/-- Witness for C1 (amended) at the concrete 37-second audio call. -/
theorem C1_amended_ceiling_billing_witness :
    mget stateBill.callTimers "callX" = some timerA37
    ∧ (completeCall reqServer stateBill).1.coinsDeducted = 800 :=
  ⟨by decide,
   (C1_amended_ceiling_billing stateBill reqServer legacyReq37 timerA37
      (by decide) (by decide)).2.2.2.1 rfl rfl⟩

/-! ### Claim C2 -/

/-- C2 counterexample: `callX` already has a timer 37 seconds in, yet
`/api/start_call_tracking` replaces it with a fresh timer whose
`durationSeconds` is 0 — not a no-op. -/
theorem C2_counterexample :
    (mget stateBill.callTimers "callX").map (fun t => t.durationSeconds) = some 37
    ∧ (mget (startCallTracking "callX" "userC" "userR" .audio 99 stateBill).callTimers
        "callX").map (fun t => t.durationSeconds) = some 0
    ∧ (startCallTracking "callX" "userC" "userR" .audio 99 stateBill).callTimers
        ≠ stateBill.callTimers := by
  decide

/-- C2 (amended): only the implicit auto-start inside `accept_call` is a
no-op when a timer already exists for the callId; both
`/api/start_call_tracking` and (when its guards pass) `/api/calls/start`
unconditionally overwrite an existing timer with a fresh one whose
`durationSeconds` restarts at 0 and whose `startTime` is the new instant. -/
theorem C2_amended_timer_start (s : ServerState) (cid a b u v : String)
    (ct : CallType) (now now2 : Nat) (t : TimerRec)
    (ht : mget s.callTimers cid = some t) :
    (acceptCall cid u v now2 s).callTimers = s.callTimers
    ∧ mget (startCallTracking cid a b ct now s).callTimers cid
        = some ⟨true, 0, COIN_RATES ct, a, b, ct, now, false⟩
    ∧ (∀ s2, callsStart cid a b ct now s = (StartResult.started (COIN_RATES ct), s2) →
        mget s2.callTimers cid
          = some ⟨true, 0, COIN_RATES ct, a, b, ct, now, false⟩) := by
  refine ⟨?_, ?_, ?_⟩
  · unfold acceptCall
    cases hcall : mget s.activeCalls cid with
    | none => rfl
    | some call =>
      by_cases hrec : call.recipientId ≠ v
      · simp [hrec]
      · simp [hrec, ht]
  · simp [startCallTracking, mget_mset_self]
  · intro s2 hp
    simp only [callsStart] at hp
    repeat' split at hp
    all_goals rw [Prod.mk.injEq] at hp
    all_goals first
      | (rw [← hp.2]
         exact mget_mset_self s.callTimers cid _)
      | simp at hp

/-- Witness for C2 (amended) at the concrete 37-second audio call. -/
theorem C2_amended_timer_start_witness :
    mget stateBill.callTimers "callX" = some timerA37
    ∧ (acceptCall "callX" "userC" "userR" 99 stateBill).callTimers = stateBill.callTimers :=
  ⟨by decide,
   (C2_amended_timer_start stateBill "callX" "userA" "userB" "userC" "userR"
      .audio 98 99 timerA37 (by decide)).1⟩

/-! ### Claim C3 -/

/-- C3: completing the same call twice through `/api/calls/complete` is a
billing no-op the second time: the first call computes the ceiling charge
and deletes the timer; the second finds no timer, deducts nothing (balances
are exactly those left by the first call), and acknowledges with the zero
`already_completed` result (or, when the retried request still carries a
client duration, with the not-found `client_fallback` echo). -/
theorem C3_idempotent_completion (s : ServerState) (r1 r2 : CompleteReq) (t : TimerRec)
    (hc : r2.callId = r1.callId)
    (ht : mget s.callTimers r1.callId = some t) :
    (completeCall r1 s).1.coinsDeducted = 100 * (ceilCoins t.durationSeconds t.coinRate : ℤ)
    ∧ mget (completeCall r1 s).2.callTimers r1.callId = none
    ∧ (completeCall r2 (completeCall r1 s).2).2.fsUsers = (completeCall r1 s).2.fsUsers
    ∧ (completeCall r2 (completeCall r1 s).2).1.newBalance = none
    ∧ (r2.client_duration_seconds = none →
        (completeCall r2 (completeCall r1 s).2).1.durationSeconds = 0
        ∧ (completeCall r2 (completeCall r1 s).2).1.coinsDeducted = 0
        ∧ (completeCall r2 (completeCall r1 s).2).1.source = "already_completed")
    ∧ (∀ cd, r2.client_duration_seconds = some cd →
        (completeCall r2 (completeCall r1 s).2).1.source = "client_fallback") := by
  have h1 : mget (completeCall r1 s).2.callTimers r2.callId = none := by
    rw [hc]
    simp [completeCall, ht, mget_mdel_self]
  refine ⟨?_, ?_, ?_, ?_, ?_, ?_⟩
  · simp [completeCall, ht]
  · simp [completeCall, ht, mget_mdel_self]
  · generalize (completeCall r1 s).2 = s1 at h1 ⊢
    cases hcd : r2.client_duration_seconds <;> simp [completeCall, h1, hcd]
  · generalize (completeCall r1 s).2 = s1 at h1 ⊢
    cases hcd : r2.client_duration_seconds <;> simp [completeCall, h1, hcd]
  · intro hcd
    generalize (completeCall r1 s).2 = s1 at h1 ⊢
    simp [completeCall, h1, hcd]
  · intro cd hcd
    generalize (completeCall r1 s).2 = s1 at h1 ⊢
    simp [completeCall, h1, hcd]

/-- Witness for C3: complete `callX` with the client report, then retry
with no client values; balances are unchanged by the retry. -/
theorem C3_idempotent_completion_witness :
    mget stateBill.callTimers "callX" = some timerA37
    ∧ (completeCall reqServer (completeCall reqClient37 stateBill).2).2.fsUsers
        = (completeCall reqClient37 stateBill).2.fsUsers :=
  ⟨by decide,
   (C3_idempotent_completion stateBill reqClient37 reqServer timerA37 rfl (by decide)).2.2.1⟩

/-! ### Claim C9 -/

/-- C9 counterexample: `end_call` on the live call `callX` removes the
session (terminating it as `ended`) yet leaves the stopped timer entry in
`callTimers`, and nothing is billed — refuting both the claimed
timer-iff-active-session correspondence and the claim that no terminated
session leaves its timer behind. -/
theorem C9_counterexample :
    mget (endCallEvt "callX" "userC" stateBill).activeCalls "callX" = none
    ∧ mget (endCallEvt "callX" "userC" stateBill).callTimers "callX"
        = some { timerA37 with running := false }
    ∧ (endCallEvt "callX" "userC" stateBill).fsUsers = stateBill.fsUsers := by
  decide

/-- C9 (amended): the timer store is not kept in one-to-one correspondence
with active-billing sessions: `end_call` terminates a session while leaving
its (stopped) timer in the store with nothing billed, and the eviction
sweep deletes surplus timers without reading a duration or touching any
balance; the read-duration/ceil-bill/delete discipline holds on the
`/api/calls/complete` path. -/
theorem C9_amended_timer_lifecycle (s : ServerState) (cid u : String)
    (call : CallRec) (t : TimerRec)
    (hc : mget s.activeCalls cid = some call)
    (ht : mget s.callTimers cid = some t) :
    (mget (endCallEvt cid u s).activeCalls cid = none
      ∧ mget (endCallEvt cid u s).callTimers cid = some { t with running := false }
      ∧ (endCallEvt cid u s).fsUsers = s.fsUsers)
    ∧ ((evictionSweep s).fsUsers = s.fsUsers
      ∧ (evictionSweep s).userStatus = s.userStatus
      ∧ (evictionSweep s).fsCalls = s.fsCalls)
    ∧ (∀ r : CompleteReq, r.callId = cid →
        mget (completeCall r s).2.callTimers cid = none
        ∧ (completeCall r s).1.durationSeconds = t.durationSeconds
        ∧ (completeCall r s).1.coinsDeducted
            = 100 * (ceilCoins t.durationSeconds t.coinRate : ℤ)) := by
  refine ⟨⟨?_, ?_, ?_⟩, ?_, ?_⟩
  · simp [endCallEvt, hc, mget_mdel_self]
  · simp [endCallEvt, hc, ht, mget_mset_self]
  · simp [endCallEvt, hc, ht]
  · unfold evictionSweep
    split <;> simp
  · intro r hr
    subst hr
    exact ⟨by simp [completeCall, ht, mget_mdel_self],
           by simp [completeCall, ht],
           by simp [completeCall, ht]⟩

/-- Witness for C9 (amended) at the concrete 37-second audio call. -/
theorem C9_amended_timer_lifecycle_witness :
    mget stateBill.activeCalls "callX"
        = some ⟨"userC", "userR", .audio, .accepted, ["userC", "userR"]⟩
    ∧ mget stateBill.callTimers "callX" = some timerA37
    ∧ mget (endCallEvt "callX" "userC" stateBill).callTimers "callX"
        = some { timerA37 with running := false } :=
  ⟨by decide, by decide,
   (C9_amended_timer_lifecycle stateBill "callX" "userC"
      ⟨"userC", "userR", .audio, .accepted, ["userC", "userR"]⟩ timerA37
      (by decide) (by decide)).1.2.1⟩

/-! ### Claim C10 -/

/-- C10: the `end_call` socket handler stops the tick source, records the
session as ended and removes it from the active store, and resets every
participant's status to available — but it deducts no coins (the Firestore
user balances are untouched) and does not remove the `callTimers` entry;
billing such a call is left to the HTTP completion endpoint or the
staleness sweep. -/
theorem C10_end_call_frame (s : ServerState) (cid u : String) (call : CallRec)
    (hc : mget s.activeCalls cid = some call) :
    (endCallEvt cid u s).fsUsers = s.fsUsers
    ∧ (∀ k, ((mget (endCallEvt cid u s).callTimers k).isSome : Bool)
          = (mget s.callTimers k).isSome)
    ∧ (∀ t, mget s.callTimers cid = some t →
        mget (endCallEvt cid u s).callTimers cid = some { t with running := false })
    ∧ (∀ p, p ∈ call.participants →
        mget (endCallEvt cid u s).userStatus p = some ⟨.available, none⟩)
    ∧ mget (endCallEvt cid u s).activeCalls cid = none
    ∧ (∀ doc, mget s.fsCalls cid = some doc →
        (mget (endCallEvt cid u s).fsCalls cid).map (fun c => c.status) = some "ended")
    ∧ (endCallEvt cid u s).locks = s.locks := by
  refine ⟨?_, ?_, ?_, ?_, ?_, ?_, ?_⟩
  · cases hti : mget s.callTimers cid <;> simp [endCallEvt, hc, hti]
  · intro k
    cases hti : mget s.callTimers cid with
    | none => simp [endCallEvt, hc, hti]
    | some t =>
      by_cases hk : k = cid
      · subst hk
        simp [endCallEvt, hc, hti, mget_mset_self]
      · simp [endCallEvt, hc, hti, mget_mset_ne _ _ hk]
  · intro t hti
    simp [endCallEvt, hc, hti, mget_mset_self]
  · intro p hp
    cases hti : mget s.callTimers cid <;>
      simp [endCallEvt, hc, hti, mget_foldl_mset_mem _ _ _ _ hp]
  · cases hti : mget s.callTimers cid <;> simp [endCallEvt, hc, hti, mget_mdel_self]
  · intro doc hdoc
    cases hti : mget s.callTimers cid <;>
      simp [endCallEvt, hc, hti, fsUpdateCall, hdoc, mget_mset_self]
  · cases hti : mget s.callTimers cid <;> simp [endCallEvt, hc, hti]

/-- Witness for C10 at the concrete 37-second audio call. -/
theorem C10_end_call_frame_witness :
    mget stateBill.activeCalls "callX"
        = some ⟨"userC", "userR", .audio, .accepted, ["userC", "userR"]⟩
    ∧ (endCallEvt "callX" "userC" stateBill).fsUsers = stateBill.fsUsers :=
  ⟨by decide,
   (C10_end_call_frame stateBill "callX" "userC"
      ⟨"userC", "userR", .audio, .accepted, ["userC", "userR"]⟩ (by decide)).1⟩

/-! ### Claim C6 -/

/-- C6 counterexample: a completion accompanied by a client-reported
duration of 100 seconds, arriving when no server timer exists, is processed
with no `abs(serverDuration - clientDuration)` comparison at all: no
suspicion flag is produced (`fraudDetection = none`) even though any
server-measured value would differ by far more than 5 seconds, and the
client-reported 20.00 coins is what gets recorded. -/
theorem C6_counterexample :
    (completeCall reqClient100 stateNoTimer).1.fraudDetection = none
    ∧ (completeCall reqClient100 stateNoTimer).1.success = true
    ∧ (completeCall reqClient100 stateNoTimer).1.coinsDeducted = 2000
    ∧ (mget (completeCall reqClient100 stateNoTimer).2.fsCalls "callX").map
        (fun c => c.coinsDeducted) = some 2000
    ∧ (completeCall reqClient100 stateNoTimer).2.fsUsers = stateNoTimer.fsUsers := by
  decide

/-- C6 (amended): when the completion finds a live server timer and a
client duration is supplied, `/api/calls/complete` computes
`abs(serverDuration - clientDuration)`, flags the completion suspicious
exactly when the difference exceeds 5 seconds, charges
`ceil(serverDuration * coinRate)` regardless of the flag, returns the flag
in the HTTP response, and always completes successfully; the flag is not
persisted to the call document — `updateCallInFirestore` whitelists its
update keys and drops the `fraudDetection` object, so the persisted update
carries exactly the status, duration, coins and end reason.  When no server
timer exists, no comparison is made: the completion is acknowledged with
the client-reported values and no balance changes. -/
theorem C6_amended_fraud_detection (s : ServerState) (r : CompleteReq)
    (t : TimerRec) (cd : Nat)
    (ht : mget s.callTimers r.callId = some t)
    (hcd : r.client_duration_seconds = some cd) :
    (completeCall r s).1.fraudDetection
        = some ⟨cd, t.durationSeconds,
                Int.natAbs ((t.durationSeconds : ℤ) - (cd : ℤ)),
                decide (Int.natAbs ((t.durationSeconds : ℤ) - (cd : ℤ)) > 5)⟩
    ∧ (completeCall r s).1.coinsDeducted
        = 100 * (ceilCoins t.durationSeconds t.coinRate : ℤ)
    ∧ (completeCall r s).2.fsUsers
        = deductUserCoins s.fsUsers (r.callerId.getD t.callerId)
            (100 * (ceilCoins t.durationSeconds t.coinRate : ℤ))
    ∧ (completeCall r s).1.success = true
    ∧ (∀ doc, mget s.fsCalls r.callId = some doc →
        mget (completeCall r s).2.fsCalls r.callId
          = some { status := "completed"
                   durationSeconds := t.durationSeconds
                   coinsDeducted := 100 * (ceilCoins t.durationSeconds t.coinRate : ℤ)
                   endReason := r.endReason.getD "User ended call" })
    ∧ (∀ (r' : CompleteReq) (cd' : Nat), mget s.callTimers r'.callId = none →
        r'.client_duration_seconds = some cd' →
        (completeCall r' s).1.fraudDetection = none
        ∧ (completeCall r' s).2.fsUsers = s.fsUsers
        ∧ (completeCall r' s).1.success = true) := by
  refine ⟨?_, ?_, ?_, ?_, ?_, ?_⟩
  · simp [completeCall, ht, hcd]
  · simp [completeCall, ht]
  · simp [completeCall, ht]
  · simp [completeCall, ht]
  · intro doc hdoc
    simp [completeCall, ht, fsUpdateCall, hdoc, mget_mset_self]
  · intro r' cd' ht' hcd'
    refine ⟨?_, ?_, ?_⟩ <;> simp [completeCall, ht', hcd']

/-- Witness for C6 (amended): client reports 100 s against a 37 s server
timer; the difference 63 exceeds 5 and the completion is flagged. -/
theorem C6_amended_fraud_detection_witness :
    mget stateBill.callTimers "callX" = some timerA37
    ∧ reqClient100.client_duration_seconds = some 100
    ∧ (completeCall reqClient100 stateBill).1.fraudDetection
        = some ⟨100, 37, 63, true⟩ :=
  ⟨by decide, by decide, by
    have h := (C6_amended_fraud_detection stateBill reqClient100 timerA37 100
      (by decide) (by decide)).1
    rw [h]
    decide⟩

/-! ### Claim C8 -/

/-- C8 counterexample: `callX` is already `accepted` (not in a
ringing/pending state), yet a second `accept_call` for it is processed
rather than rejected: the recipient is appended to the participants again
and the state changes. -/
theorem C8_counterexample :
    (mget stateBill.activeCalls "callX").map (fun c => c.status)
        = some CallStatus.accepted
    ∧ CallStatus.accepted ≠ CallStatus.ringing
    ∧ CallStatus.accepted ≠ CallStatus.pending_fcm
    ∧ (mget (acceptCall "callX" "userC" "userR" 99 stateBill).activeCalls "callX").map
        (fun c => c.participants) = some ["userC", "userR", "userR"]
    ∧ acceptCall "callX" "userC" "userR" 99 stateBill ≠ stateBill := by
  decide

/-- C8 (amended): `accept_call` checks only that the session exists and that
the accepting user equals the session's `recipientId`; the session status is
never inspected, so an accept is processed (statuses to busy, status to
accepted, recipient re-appended, timer started only if absent) whatever
state the session is in.  An accept arriving after the ring-timeout fired is
rejected only because the timeout removed the session from the store. -/
theorem C8_amended_accept_guard (cid u v : String) (now : Nat) (s : ServerState) :
    (mget s.activeCalls cid = none →
      acceptCall cid u v now s
        = { s with events := s.events ++ [.errorEvt "Call not found"] })
    ∧ (∀ call, mget s.activeCalls cid = some call → call.recipientId ≠ v →
      acceptCall cid u v now s
        = { s with events := s.events ++ [.errorEvt "Unauthorized to accept this call"] })
    ∧ (∀ call, mget s.activeCalls cid = some call → call.recipientId = v →
        (mget (acceptCall cid u v now s).activeCalls cid).map (fun c => c.status)
            = some CallStatus.accepted
        ∧ (mget (acceptCall cid u v now s).activeCalls cid).map (fun c => c.participants)
            = some (call.participants ++ [v])
        ∧ mget (acceptCall cid u v now s).userStatus v = some ⟨.busy, some cid⟩
        ∧ ((mget s.callTimers cid).isSome = true →
            (acceptCall cid u v now s).callTimers = s.callTimers)
        ∧ (mget s.callTimers cid = none →
            ((mget (acceptCall cid u v now s).callTimers cid).isSome : Bool) = true))
    ∧ (∀ call, mget s.activeCalls cid = some call → call.status = CallStatus.ringing →
        mget (ringTimeout cid call.recipientId call.callerId s).activeCalls cid = none
        ∧ acceptCall cid u v now (ringTimeout cid call.recipientId call.callerId s)
          = { ringTimeout cid call.recipientId call.callerId s with
              events := (ringTimeout cid call.recipientId call.callerId s).events
                          ++ [.errorEvt "Call not found"] }) := by
  refine ⟨?_, ?_, ?_, ?_⟩
  · intro h
    simp [acceptCall, h]
  · intro call hcall hne
    simp [acceptCall, hcall, hne]
  · intro call hcall hrec
    refine ⟨?_, ?_, ?_, ?_, ?_⟩
    · simp [acceptCall, hcall, hrec, mget_mset_self]
    · simp [acceptCall, hcall, hrec, mget_mset_self]
    · simp [acceptCall, hcall, hrec, mget_mset_self]
    · intro hti
      simp [acceptCall, hcall, hrec, hti]
    · intro hti
      simp [acceptCall, hcall, hrec, hti, mget_mset_self]
  · intro call hcall hst
    have hnone : mget (ringTimeout cid call.recipientId call.callerId s).activeCalls cid
        = none := by
      simp [ringTimeout, hcall, hst, mget_mdel_self]
    exact ⟨hnone, by simp [acceptCall, hnone]⟩

/-- Witness for C8 (amended): the second accept on the already-accepted
`callX` duplicates the recipient in the participants list. -/
theorem C8_amended_accept_guard_witness :
    mget stateBill.activeCalls "callX"
        = some ⟨"userC", "userR", .audio, .accepted, ["userC", "userR"]⟩
    ∧ (mget (acceptCall "callX" "userC" "userR" 99 stateBill).activeCalls "callX").map
        (fun c => c.participants) = some (["userC", "userR"] ++ ["userR"]) :=
  ⟨by decide,
   ((C8_amended_accept_guard "callX" "userC" "userR" 99 stateBill).2.2.1
      ⟨"userC", "userR", .audio, .accepted, ["userC", "userR"]⟩ (by decide) rfl).2.1⟩

/-! ### Claim C7 -/

/-- C7 counterexample: when `userR` drops mid-call, the remaining user
`userC` is reset to available but the disconnecting user's own status is set
to `disconnected`, not `available`; and the only signal emitted is the
distinct `participant_disconnected` — no standard `call_ended` end signal
accompanies it on this path. -/
theorem C7_counterexample :
    mget (disconnectHandler "userR" stateBill).userStatus "userR"
        = some ⟨.disconnected, none⟩
    ∧ UStatus.disconnected ≠ UStatus.available
    ∧ (disconnectHandler "userR" stateBill).events
        = [.participantDisconnected "userC" "callX"] := by
  decide

/-- C7 (amended): a mid-call disconnect with a live timer terminates the
session with `endReason = connection_lost`: the timer stops at its current
`durationSeconds` and is removed, the caller is charged
`ceil(durationSeconds * coinRate)`, the session is removed, the *other*
participants are reset to available while the disconnecting user's own
status becomes `disconnected`, and connected peers receive the distinct
`participant_disconnected` signal — the handler emits only such signals, no
standard `call_ended`. -/
theorem C7_amended_disconnect (s : ServerState) (uid cid : String)
    (conn : ConnRec) (st : UserStatusRec) (call : CallRec) (t : TimerRec)
    (hconn : mget s.connectedUsers uid = some conn)
    (hst : mget s.userStatus uid = some st)
    (hcid : st.currentCallId = some cid)
    (hcall : mget s.activeCalls cid = some call)
    (ht : mget s.callTimers cid = some t)
    (hrate : t.coinRate ≠ 0)
    (hpos : 0 < ceilCoins t.durationSeconds t.coinRate) :
    mget (disconnectHandler uid s).callTimers cid = none
    ∧ (disconnectHandler uid s).fsUsers
        = deductUserCoins s.fsUsers call.callerId
            (100 * (ceilCoins t.durationSeconds t.coinRate : ℤ))
    ∧ mget (disconnectHandler uid s).userStatus uid = some ⟨.disconnected, none⟩
    ∧ (∀ p, p ∈ call.participants → p ≠ uid →
        mget (disconnectHandler uid s).userStatus p = some ⟨.available, none⟩)
    ∧ mget (disconnectHandler uid s).activeCalls cid = none
    ∧ (∀ doc, mget s.fsCalls cid = some doc →
        mget (disconnectHandler uid s).fsCalls cid
          = some { doc with status := "disconnected"
                            endReason := "connection_lost"
                            durationSeconds := t.durationSeconds
                            coinsDeducted := 100 * (ceilCoins t.durationSeconds t.coinRate : ℤ) })
    ∧ (∃ evts, (disconnectHandler uid s).events = s.events ++ evts
        ∧ (∀ e, e ∈ evts → ∃ p, e = OutEvent.participantDisconnected p cid)
        ∧ (∀ p pc, p ∈ call.participants → p ≠ uid →
            mget s.connectedUsers p = some pc → pc.isOnline = true →
            OutEvent.participantDisconnected p cid ∈ evts)) := by
  have hcoins : (0 : ℤ) < 100 * (ceilCoins t.durationSeconds t.coinRate : ℤ) := by
    have : (0 : ℤ) < (ceilCoins t.durationSeconds t.coinRate : ℤ) := by
      exact_mod_cast hpos
    omega
  refine ⟨?_, ?_, ?_, ?_, ?_, ?_, ?_⟩
  · simp [disconnectHandler, hconn, hst, hcid, hcall, ht, mget_mdel_self]
  · simp [disconnectHandler, hconn, hst, hcid, hcall, ht, hrate, hcoins]
  · simp [disconnectHandler, hconn, hst, hcid, hcall, ht, mget_mset_self]
  · intro p hp hne
    have hmem : p ∈ call.participants.filter (fun q => q ≠ uid) := by
      refine List.mem_filter.mpr ⟨hp, ?_⟩
      simp [hne]
    simp only [disconnectHandler, hconn, hst, hcid, hcall, ht]
    rw [mget_mset_ne _ _ hne, mget_foldl_mset_mem _ _ _ _ hmem]
  · simp [disconnectHandler, hconn, hst, hcid, hcall, ht, mget_mdel_self]
  · intro doc hdoc
    simp [disconnectHandler, hconn, hst, hcid, hcall, ht, hrate, fsUpdateCall, hdoc,
          mget_mset_self]
  · refine ⟨(call.participants.filter (fun q => q ≠ uid)).filterMap (fun p =>
        match mget (mset s.connectedUsers uid { conn with isOnline := false }) p with
        | some pc => if pc.isOnline then some (OutEvent.participantDisconnected p cid) else none
        | none => none), ?_, ?_, ?_⟩
    · simp [disconnectHandler, hconn, hst, hcid, hcall, ht]
    · intro e he
      rw [List.mem_filterMap] at he
      obtain ⟨p, _, hf⟩ := he
      revert hf
      cases mget (mset s.connectedUsers uid { conn with isOnline := false }) p with
      | none => intro hf; cases hf
      | some pc =>
        by_cases hon : pc.isOnline = true
        · intro hf
          simp only [hon, if_true] at hf
          exact ⟨p, (Option.some.inj hf).symm⟩
        · intro hf
          rw [Bool.not_eq_true] at hon
          simp [hon] at hf
    · intro p pc hp hne hpc hon
      rw [List.mem_filterMap]
      refine ⟨p, List.mem_filter.mpr ⟨hp, by simp [hne]⟩, ?_⟩
      rw [mget_mset_ne _ _ hne, hpc]
      simp [hon]

/-- Witness for C7 (amended): `userR` drops out of the 37-second call;
`userC` is charged 8 coins and its status record is reset to available. -/
theorem C7_amended_disconnect_witness :
    mget stateBill.callTimers "callX" = some timerA37
    ∧ (disconnectHandler "userR" stateBill).fsUsers
        = deductUserCoins stateBill.fsUsers "userC"
            (100 * (ceilCoins timerA37.durationSeconds timerA37.coinRate : ℤ)) :=
  ⟨by decide,
   (C7_amended_disconnect stateBill "userR" "callX" ⟨"sockR", true, true⟩
      ⟨.busy, some "callX"⟩ ⟨"userC", "userR", .audio, .accepted, ["userC", "userR"]⟩
      timerA37 (by decide) (by decide) rfl (by decide) (by decide)
      (by decide) (by decide)).2.1⟩

/-! ### Claim C4 -/

/-- C4 counterexample: in the interleaved execution of two `initiate_call`
handlers that both suspend at the awaited caller-name fetch, both calls
reach `ringing` at the same recipient, and the Distributed Lock store stays
empty throughout — no lock acquisition precedes (or accompanies) either
ringing transition. -/
theorem C4_counterexample :
    (mget raceState4.activeCalls "call1").map (fun c => c.status)
        = some CallStatus.ringing
    ∧ (mget raceState4.activeCalls "call2").map (fun c => c.status)
        = some CallStatus.ringing
    ∧ mget raceState4.userStatus "userR" = some ⟨.ringing, some "call2"⟩
    ∧ stateTwoCallers.locks = []
    ∧ racePhaseA1.1.locks = []
    ∧ racePhaseA2.1.locks = []
    ∧ raceState3.locks = []
    ∧ raceState4.locks = [] := by
  decide

/-- C4 (amended): server.js never invokes `acquireCallLock` — `initiate_call`
leaves the lock store untouched on every path, in both of its phases; the
only guard is the busy/ringing status check in the synchronous prefix, which
does enforce mutual exclusion sequentially (a second initiate at a ringing
recipient is rejected with no new session) but not across handlers
interleaved at the caller-name `await`. -/
theorem C4_amended_no_lock (callerId recipientId : String) (ct : CallType)
    (rc : Option String) (now : Nat) (s : ServerState) :
    (initiateCall callerId recipientId ct rc now s).locks = s.locks
    ∧ (initPhaseA callerId recipientId ct rc now s).1.locks = s.locks
    ∧ (∀ ctx, (initPhaseB ctx now s).locks = s.locks)
    ∧ (∀ r, mget s.userStatus recipientId = some r → r.status = .ringing →
        (initiateCall callerId recipientId ct rc now s).activeCalls = s.activeCalls
        ∧ (initiateCall callerId recipientId ct rc now s).userStatus = s.userStatus) := by
  have hA : (initPhaseA callerId recipientId ct rc now s).1.locks = s.locks := by
    simp only [initPhaseA]
    repeat' split
    all_goals rfl
  have hB : ∀ ctx s0, (initPhaseB ctx now s0 : ServerState).locks = s0.locks := by
    intro ctx s0
    simp only [initPhaseB]
    repeat' split
    all_goals rfl
  refine ⟨?_, hA, fun ctx => hB ctx s, ?_⟩
  · unfold initiateCall
    rcases hp : initPhaseA callerId recipientId ct rc now s with ⟨s1, octx⟩
    have hs1 : s1.locks = s.locks := by
      rw [← hA, hp]
    cases octx with
    | none => exact hs1
    | some ctx => rw [hB ctx s1]; exact hs1
  · intro r hr hring
    constructor <;>
      simp [initiateCall, initPhaseA, hr, hring]

/-- Witness for C4 (amended): with `userR` already ringing for `call1`, a
new initiate from `userB` creates no session and changes no status. -/
theorem C4_amended_no_lock_witness :
    mget stateRRinging.userStatus "userR" = some ⟨.ringing, some "call1"⟩
    ∧ ((initiateCall "userB" "userR" .audio (some "call2") 11 stateRRinging).activeCalls
          = stateRRinging.activeCalls
      ∧ (initiateCall "userB" "userR" .audio (some "call2") 11 stateRRinging).userStatus
          = stateRRinging.userStatus) :=
  ⟨by decide,
   (C4_amended_no_lock "userB" "userR" .audio (some "call2") 11 stateRRinging).2.2.2
      ⟨.ringing, some "call1"⟩ (by decide) rfl⟩

/-! ### Claim C5 -/

/-- C5: an initiate whose recipient resolves to `busy`, `ringing` or
`unavailable` is rejected back to the caller with the resolved status as the
reported recipient status (`call_failed`), and the attempt changes no state:
the active-call store, status map, timer store and balances are untouched. -/
theorem C5_unavailable_rejection (callerId recipientId : String) (ct : CallType)
    (rc : Option String) (now : Nat) (s : ServerState)
    (h : resolvedStatus s recipientId = .busy ∨ resolvedStatus s recipientId = .ringing
        ∨ resolvedStatus s recipientId = .unavailable) :
    (initiateCall callerId recipientId ct rc now s).activeCalls = s.activeCalls
    ∧ (initiateCall callerId recipientId ct rc now s).userStatus = s.userStatus
    ∧ (initiateCall callerId recipientId ct rc now s).callTimers = s.callTimers
    ∧ (initiateCall callerId recipientId ct rc now s).fsUsers = s.fsUsers
    ∧ ∃ reason cidd, (initiateCall callerId recipientId ct rc now s).events
        = s.events ++ [.callFailed cidd reason (some (resolvedStatus s recipientId))] := by
  cases hst : mget s.userStatus recipientId with
  | some r =>
    cases hstat : r.status with
    | busy =>
      have hres : resolvedStatus s recipientId = .busy := by
        simp [resolvedStatus, hst, hstat]
      have heq : initiateCall callerId recipientId ct rc now s
          = { s with events := s.events ++ [.callFailed (rc.getD (genFailId now))
              "User is busy on another call" (some .busy)] } := by
        simp [initiateCall, initPhaseA, hst, hstat]
      rw [heq, hres]
      exact ⟨rfl, rfl, rfl, rfl, "User is busy on another call",
             rc.getD (genFailId now), rfl⟩
    | ringing =>
      have hres : resolvedStatus s recipientId = .ringing := by
        simp [resolvedStatus, hst, hstat]
      have heq : initiateCall callerId recipientId ct rc now s
          = { s with events := s.events ++ [.callFailed (rc.getD (genFailId now))
              "User is receiving another call" (some .ringing)] } := by
        simp [initiateCall, initPhaseA, hst, hstat]
      rw [heq, hres]
      exact ⟨rfl, rfl, rfl, rfl, "User is receiving another call",
             rc.getD (genFailId now), rfl⟩
    | available =>
      by_cases hc : (match mget s.connectedUsers recipientId with
          | some cc => cc.isOnline && cc.socketConnected
          | none => false) = true
      · have hres : resolvedStatus s recipientId = .available := by
          simp [resolvedStatus, hst, hstat, hc]
        rcases h with h | h | h <;> simp [hres] at h
      · rw [Bool.not_eq_true] at hc
        cases hfs : mget s.fsUsers recipientId with
        | none =>
          have hres : resolvedStatus s recipientId = .unavailable := by
            simp [resolvedStatus, hst, hstat, hc, hfs]
          have heq : initiateCall callerId recipientId ct rc now s
              = { s with events := s.events ++ [.callFailed (rc.getD (genFailId now))
                  ("Recipient is currently " ++ statusName .unavailable)
                  (some .unavailable)] } := by
            simp [initiateCall, initPhaseA, initPhaseB, hst, hstat, hc, hfs]
          rw [heq, hres]
          exact ⟨rfl, rfl, rfl, rfl, "Recipient is currently " ++ statusName .unavailable,
                 rc.getD (genFailId now), rfl⟩
        | some u =>
          by_cases hav : (u.isAvailable && u.hasFcmToken) = true
          · have hres : resolvedStatus s recipientId = .fcm_reachable := by
              simp [resolvedStatus, hst, hstat, hc, hfs, hav]
            rcases h with h | h | h <;> simp [hres] at h
          · rw [Bool.not_eq_true] at hav
            have hres : resolvedStatus s recipientId = .unavailable := by
              simp [resolvedStatus, hst, hstat, hc, hfs, hav]
            have heq : initiateCall callerId recipientId ct rc now s
                = { s with events := s.events ++ [.callFailed (rc.getD (genFailId now))
                    ("Recipient is currently " ++ statusName .unavailable)
                    (some .unavailable)] } := by
              simp [initiateCall, initPhaseA, initPhaseB, hst, hstat, hc, hfs, hav]
            rw [heq, hres]
            exact ⟨rfl, rfl, rfl, rfl, "Recipient is currently " ++ statusName .unavailable,
                   rc.getD (genFailId now), rfl⟩
    | unavailable =>
      by_cases hc : (match mget s.connectedUsers recipientId with
          | some cc => cc.isOnline && cc.socketConnected
          | none => false) = true
      · have hres : resolvedStatus s recipientId = .unavailable := by
          simp [resolvedStatus, hst, hstat, hc]
        have heq : initiateCall callerId recipientId ct rc now s
            = { s with events := s.events ++ [.callFailed (rc.getD (genFailId now))
                ("Recipient is currently " ++ statusName .unavailable)
                (some .unavailable)] } := by
          simp [initiateCall, initPhaseA, initPhaseB, hst, hstat, hc]
        rw [heq, hres]
        exact ⟨rfl, rfl, rfl, rfl, "Recipient is currently " ++ statusName .unavailable,
               rc.getD (genFailId now), rfl⟩
      · rw [Bool.not_eq_true] at hc
        cases hfs : mget s.fsUsers recipientId with
        | none =>
          have hres : resolvedStatus s recipientId = .unavailable := by
            simp [resolvedStatus, hst, hstat, hc, hfs]
          have heq : initiateCall callerId recipientId ct rc now s
              = { s with events := s.events ++ [.callFailed (rc.getD (genFailId now))
                  ("Recipient is currently " ++ statusName .unavailable)
                  (some .unavailable)] } := by
            simp [initiateCall, initPhaseA, initPhaseB, hst, hstat, hc, hfs]
          rw [heq, hres]
          exact ⟨rfl, rfl, rfl, rfl, "Recipient is currently " ++ statusName .unavailable,
                 rc.getD (genFailId now), rfl⟩
        | some u =>
          by_cases hav : (u.isAvailable && u.hasFcmToken) = true
          · have hres : resolvedStatus s recipientId = .fcm_reachable := by
              simp [resolvedStatus, hst, hstat, hc, hfs, hav]
            rcases h with h | h | h <;> simp [hres] at h
          · rw [Bool.not_eq_true] at hav
            have hres : resolvedStatus s recipientId = .unavailable := by
              simp [resolvedStatus, hst, hstat, hc, hfs, hav]
            have heq : initiateCall callerId recipientId ct rc now s
                = { s with events := s.events ++ [.callFailed (rc.getD (genFailId now))
                    ("Recipient is currently " ++ statusName .unavailable)
                    (some .unavailable)] } := by
              simp [initiateCall, initPhaseA, initPhaseB, hst, hstat, hc, hfs, hav]
            rw [heq, hres]
            exact ⟨rfl, rfl, rfl, rfl, "Recipient is currently " ++ statusName .unavailable,
                   rc.getD (genFailId now), rfl⟩
    | disconnected =>
      by_cases hc : (match mget s.connectedUsers recipientId with
          | some cc => cc.isOnline && cc.socketConnected
          | none => false) = true
      · have hres : resolvedStatus s recipientId = .disconnected := by
          simp [resolvedStatus, hst, hstat, hc]
        rcases h with h | h | h <;> simp [hres] at h
      · rw [Bool.not_eq_true] at hc
        cases hfs : mget s.fsUsers recipientId with
        | none =>
          have hres : resolvedStatus s recipientId = .unavailable := by
            simp [resolvedStatus, hst, hstat, hc, hfs]
          have heq : initiateCall callerId recipientId ct rc now s
              = { s with events := s.events ++ [.callFailed (rc.getD (genFailId now))
                  ("Recipient is currently " ++ statusName .unavailable)
                  (some .unavailable)] } := by
            simp [initiateCall, initPhaseA, initPhaseB, hst, hstat, hc, hfs]
          rw [heq, hres]
          exact ⟨rfl, rfl, rfl, rfl, "Recipient is currently " ++ statusName .unavailable,
                 rc.getD (genFailId now), rfl⟩
        | some u =>
          by_cases hav : (u.isAvailable && u.hasFcmToken) = true
          · have hres : resolvedStatus s recipientId = .fcm_reachable := by
              simp [resolvedStatus, hst, hstat, hc, hfs, hav]
            rcases h with h | h | h <;> simp [hres] at h
          · rw [Bool.not_eq_true] at hav
            have hres : resolvedStatus s recipientId = .unavailable := by
              simp [resolvedStatus, hst, hstat, hc, hfs, hav]
            have heq : initiateCall callerId recipientId ct rc now s
                = { s with events := s.events ++ [.callFailed (rc.getD (genFailId now))
                    ("Recipient is currently " ++ statusName .unavailable)
                    (some .unavailable)] } := by
              simp [initiateCall, initPhaseA, initPhaseB, hst, hstat, hc, hfs, hav]
            rw [heq, hres]
            exact ⟨rfl, rfl, rfl, rfl, "Recipient is currently " ++ statusName .unavailable,
                   rc.getD (genFailId now), rfl⟩
    | fcm_reachable =>
      by_cases hc : (match mget s.connectedUsers recipientId with
          | some cc => cc.isOnline && cc.socketConnected
          | none => false) = true
      · have hres : resolvedStatus s recipientId = .fcm_reachable := by
          simp [resolvedStatus, hst, hstat, hc]
        rcases h with h | h | h <;> simp [hres] at h
      · rw [Bool.not_eq_true] at hc
        cases hfs : mget s.fsUsers recipientId with
        | none =>
          have hres : resolvedStatus s recipientId = .unavailable := by
            simp [resolvedStatus, hst, hstat, hc, hfs]
          have heq : initiateCall callerId recipientId ct rc now s
              = { s with events := s.events ++ [.callFailed (rc.getD (genFailId now))
                  ("Recipient is currently " ++ statusName .unavailable)
                  (some .unavailable)] } := by
            simp [initiateCall, initPhaseA, initPhaseB, hst, hstat, hc, hfs]
          rw [heq, hres]
          exact ⟨rfl, rfl, rfl, rfl, "Recipient is currently " ++ statusName .unavailable,
                 rc.getD (genFailId now), rfl⟩
        | some u =>
          by_cases hav : (u.isAvailable && u.hasFcmToken) = true
          · have hres : resolvedStatus s recipientId = .fcm_reachable := by
              simp [resolvedStatus, hst, hstat, hc, hfs, hav]
            rcases h with h | h | h <;> simp [hres] at h
          · rw [Bool.not_eq_true] at hav
            have hres : resolvedStatus s recipientId = .unavailable := by
              simp [resolvedStatus, hst, hstat, hc, hfs, hav]
            have heq : initiateCall callerId recipientId ct rc now s
                = { s with events := s.events ++ [.callFailed (rc.getD (genFailId now))
                    ("Recipient is currently " ++ statusName .unavailable)
                    (some .unavailable)] } := by
              simp [initiateCall, initPhaseA, initPhaseB, hst, hstat, hc, hfs, hav]
            rw [heq, hres]
            exact ⟨rfl, rfl, rfl, rfl, "Recipient is currently " ++ statusName .unavailable,
                   rc.getD (genFailId now), rfl⟩
  | none =>
    by_cases hc : (match mget s.connectedUsers recipientId with
        | some cc => cc.isOnline && cc.socketConnected
        | none => false) = true
    · have hres : resolvedStatus s recipientId = .available := by
        simp [resolvedStatus, hst, hc]
      rcases h with h | h | h <;> simp [hres] at h
    · rw [Bool.not_eq_true] at hc
      cases hfs : mget s.fsUsers recipientId with
      | none =>
        have hres : resolvedStatus s recipientId = .unavailable := by
          simp [resolvedStatus, hst, hc, hfs]
        have heq : initiateCall callerId recipientId ct rc now s
            = { s with events := s.events ++ [.callFailed (rc.getD (genFailId now))
                ("Recipient is currently " ++ statusName .unavailable)
                (some .unavailable)] } := by
          simp [initiateCall, initPhaseA, initPhaseB, hst, hc, hfs]
        rw [heq, hres]
        exact ⟨rfl, rfl, rfl, rfl, "Recipient is currently " ++ statusName .unavailable,
               rc.getD (genFailId now), rfl⟩
      | some u =>
        by_cases hav : (u.isAvailable && u.hasFcmToken) = true
        · have hres : resolvedStatus s recipientId = .fcm_reachable := by
            simp [resolvedStatus, hst, hc, hfs, hav]
          rcases h with h | h | h <;> simp [hres] at h
        · rw [Bool.not_eq_true] at hav
          have hres : resolvedStatus s recipientId = .unavailable := by
            simp [resolvedStatus, hst, hc, hfs, hav]
          have heq : initiateCall callerId recipientId ct rc now s
              = { s with events := s.events ++ [.callFailed (rc.getD (genFailId now))
                  ("Recipient is currently " ++ statusName .unavailable)
                  (some .unavailable)] } := by
            simp [initiateCall, initPhaseA, initPhaseB, hst, hc, hfs, hav]
          rw [heq, hres]
          exact ⟨rfl, rfl, rfl, rfl, "Recipient is currently " ++ statusName .unavailable,
                 rc.getD (genFailId now), rfl⟩

/-- Witness for C5: a second caller hits the ringing recipient `userR` and
is rejected with recipient status `ringing`, creating no session. -/
theorem C5_unavailable_rejection_witness :
    resolvedStatus stateRRinging "userR" = .ringing
    ∧ (initiateCall "userB" "userR" .audio (some "call2") 11 stateRRinging).activeCalls
        = stateRRinging.activeCalls :=
  ⟨by decide,
   (C5_unavailable_rejection "userB" "userR" .audio (some "call2") 11 stateRRinging
      (Or.inr (Or.inl (by decide)))).1⟩

end TingaTalk
